import Mathlib

/-!
Verification of the live-sync planning and execution engine of skaffold
(pkg/skaffold/sync/sync.go): the rule matcher, the plan intersector, the
tag resolver, the plan builder (NewItem) and the plan executor (Perform)
are embedded shallowly, and the behavioural claims about them are proved.

Paths are Linux slash-paths, so filepath.ToSlash and filepath.FromSlash
are the identity and are not modelled. Go errors are modelled as String;
a Go pair (value, error) becomes Except String value, the special
(nil, nil) result of plan building becomes Except.ok none.
-/

deriving instance DecidableEq for Except

namespace Skaffold

/-! ### Path and string helpers (Go standard library, slash separator) -/

/-- Splits a character list on the slash separator, mirroring
strings.Split(s, sep between path components). Helper for the path
functions below. -/
def splitCompsGo : List Char → List Char → List (List Char)
  | [], acc => [acc.reverse]
  | '/' :: rest, acc => acc.reverse :: splitCompsGo rest []
  | c :: rest, acc => splitCompsGo rest (c :: acc)

/-- All slash-separated components of a character list. -/
def splitComps (s : List Char) : List (List Char) :=
  splitCompsGo s []

/-- Joins components with the slash separator. -/
def joinComps : List (List Char) → List Char
  | [] => []
  | [c] => c
  | c :: rest => c ++ '/' :: joinComps rest

/-- strings.TrimPrefix: removes the literal prefix when present, and
returns the string unchanged otherwise (the no-strip fallback). -/
def trimPre (s pre : String) : String :=
  if pre.toList.isPrefixOf s.toList then String.mk (s.toList.drop pre.toList.length) else s

/-- path.IsAbs from the Go path package: a slash-path is absolute exactly
when it starts with a slash. -/
def pathIsAbs (p : String) : Bool :=
  match p.toList with
  | '/' :: _ => true
  | _ => false

/-- One step of path.Clean: processes the components left to right,
dropping empty and dot components and resolving dot-dot against the
already emitted components (the accumulator holds them reversed). -/
def cleanCompsGo (rooted : Bool) : List (List Char) → List (List Char) → List (List Char)
  | [], acc => acc.reverse
  | c :: rest, acc =>
    if c = ([] : List Char) ∨ c = ['.'] then cleanCompsGo rooted rest acc
    else if c = ['.', '.'] then
      match acc with
      | [] => if rooted then cleanCompsGo rooted rest [] else cleanCompsGo rooted rest [c]
      | a :: acc' =>
        if a = ['.', '.'] then cleanCompsGo rooted rest (c :: a :: acc')
        else cleanCompsGo rooted rest acc'
    else cleanCompsGo rooted rest (c :: acc)

/-- path.Clean from the Go path package: the shortest equivalent
slash-path, with "." for the empty result of a relative path. -/
def pathClean (p : String) : String :=
  if p.toList = [] then "."
  else
    let rooted := pathIsAbs p
    let comps := cleanCompsGo rooted (splitComps p.toList) []
    let s := joinComps comps
    if rooted then String.mk ('/' :: s)
    else if s = [] then "."
    else String.mk s

/-- path.Join from the Go path package: joins the non-empty elements with
slashes and cleans the result; all-empty input yields the empty string. -/
def pathJoin (elems : List String) : String :=
  let ne := elems.filter (fun e => e ≠ "")
  if ne.isEmpty then ""
  else pathClean (String.mk (joinComps (ne.map String.toList)))

/-- Modelled from the spec: filepath.Rel is Go standard library code, not
under src/. The spec requires each changed path to be expressed relative
to the workspace root, with a hard error naming the offending path when
that is impossible. Modelled as stripping the workspace prefix: a path is
expressible relative to the workspace when it is the workspace itself or
lies under it. -/
def filepathRel (basepath targpath : String) : Except String String :=
  if targpath = basepath then .ok "."
  else if (basepath ++ "/").toList.isPrefixOf targpath.toList then
    .ok (String.mk (targpath.toList.drop (basepath.toList.length + 1)))
  else .error ("Rel: can't make " ++ targpath ++ " relative to " ++ basepath)

/-! ### Glob matching (third-party doublestar library)

Modelled from the spec: the doublestar pattern library is a third-party
dependency, not under src/. The spec asks for glob semantics with a
recursive-wildcard segment that matches across directory boundaries, and
for malformed patterns to be hard errors. The model supports literal
characters, the single-character wildcard, the in-component star, the
backslash escape, and the recursive-wildcard component; a backslash with
nothing left to escape is the malformed-pattern case, reported — as in
the Go matchers — only when matching actually scans it. Matching is
bounded by a fuel argument that strictly exceeds the work remaining, so
the zero-fuel branch is unreachable. -/

/-- Matches one pattern component against one path component; .error ()
signals a malformed pattern. Every recursive call shrinks the combined
length of pattern and component, so the given fuel suffices. -/
def compMatchF : Nat → List Char → List Char → Except Unit Bool
  | 0, _, _ => .ok false
  | fuel + 1, pat, s =>
    match pat, s with
    | [], [] => .ok true
    | [], _ :: _ => .ok false
    | '*' :: ps, s =>
      match compMatchF fuel ps s with
      | .error e => .error e
      | .ok true => .ok true
      | .ok false =>
        match s with
        | [] => .ok false
        | _ :: cs => compMatchF fuel ('*' :: ps) cs
    | _ :: _, [] => .ok false
    | '?' :: ps, _ :: cs => compMatchF fuel ps cs
    | '\\' :: ps, c :: cs =>
      match ps with
      | [] => .error ()
      | p :: ps' => if p = c then compMatchF fuel ps' cs else .ok false
    | p :: ps, c :: cs => if p = c then compMatchF fuel ps cs else .ok false

/-- Matches one pattern component against one path component. -/
def compMatch (pat s : List Char) : Except Unit Bool :=
  compMatchF (pat.length + s.length + 1) pat s

/-- Matches a component-split pattern against a component-split path; the
recursive-wildcard component matches any number of path components.
Every recursive call shrinks the combined number of components, so the
given fuel suffices. -/
def globMatchF : Nat → List (List Char) → List (List Char) → Except Unit Bool
  | 0, _, _ => .ok false
  | fuel + 1, pat, path =>
    match pat, path with
    | [], [] => .ok true
    | [], _ :: _ => .ok false
    | p :: ps, cs =>
      if p = ['*', '*'] then
        match globMatchF fuel ps cs with
        | .error e => .error e
        | .ok true => .ok true
        | .ok false =>
          match cs with
          | [] => .ok false
          | _ :: cs' => globMatchF fuel (p :: ps) cs'
      else
        match cs with
        | [] => .ok false
        | c :: cs' =>
          match compMatch p c with
          | .error e => .error e
          | .ok true => globMatchF fuel ps cs'
          | .ok false => .ok false

/-- doublestar.PathMatch: splits pattern and name on the separator and
matches component-wise. -/
def pathMatch (pattern name : String) : Except Unit Bool :=
  let ps := splitComps pattern.toList
  let ns := splitComps name.toList
  globMatchF (ps.length + ns.length + 1) ps ns

/-! ### Data model (schema/latest, build, watch) -/

/-- latest.SyncRule: Src is a glob relative to the workspace, Dest is an
absolute or workdir-relative container path, Strip is the literal prefix
removed from the matched relative path. -/
structure SyncRule where
  src : String
  dest : String
  strip : String
deriving DecidableEq, Repr

/-- latest.Sync: the manual sync rules declared on an artifact. -/
structure Sync where
  manual : List SyncRule
deriving DecidableEq, Repr

/-- The fields of latest.Artifact that plan building reads. -/
structure Artifact where
  imageName : String
  workspace : String
  sync : Option Sync
deriving DecidableEq, Repr

/-- build.Artifact: pairs a logical image name with its built tag. -/
structure BuildArtifact where
  imageName : String
  tag : String
deriving DecidableEq, Repr

/-- watch.Events: the change batch of added, modified and deleted host
paths. -/
structure Events where
  added : List String
  modified : List String
  deleted : List String
deriving DecidableEq, Repr

/-- Modelled from the spec: watch.Events.HasChanged is not under src/;
the spec describes a derived hasChanged flag on the change batch, true
exactly when some list of the batch is non-empty. -/
def Events.hasChanged (e : Events) : Bool :=
  !e.added.isEmpty || !e.modified.isEmpty || !e.deleted.isEmpty

/-- The sync rules of an artifact; Go's guard
a.Sync == nil or len(a.Sync.Manual) == 0 is exactly
artifactSyncRules a = []. -/
def artifactSyncRules (a : Artifact) : List SyncRule :=
  match a.sync with
  | none => []
  | some s => s.manual

/-- syncMap: mapping from a changed host path to its container
destinations, as an association list. -/
abbrev syncMap : Type := List (String × List String)

/-- Map update ret[f] = dsts: replaces the binding of the key when it is
present, appends it otherwise. -/
def syncMapSet : syncMap → String → List String → syncMap
  | [], k, v => [(k, v)]
  | (k', v') :: m, k, v => if k' = k then (k, v) :: m else (k', v') :: syncMapSet m k v

/-- sync.Item: the sync plan for one image. -/
structure Item where
  image : String
  copy : syncMap
  delete : syncMap
deriving DecidableEq

/-! ### The rule matcher, intersector, tag resolver and plan builder -/

/-- Loop body of matchSyncRules: walks the rules in declaration order and
appends a destination for every rule whose source pattern matches the
relative path; a pattern error aborts with the error wrapped around the
path being matched. -/
def matchSyncRulesGo (relPath containerWd : String) : List SyncRule → List String → Except String (List String)
  | [], dsts => .ok dsts
  | r :: rs, dsts =>
    match pathMatch r.src relPath with
    | .error _ => .error ("pattern error for " ++ relPath ++ ": syntax error in pattern")
    | .ok false => matchSyncRulesGo relPath containerWd rs dsts
    | .ok true =>
      let wd := if pathIsAbs r.dest then "" else containerWd
      let subPath := trimPre relPath r.strip
      matchSyncRulesGo relPath containerWd rs (dsts ++ [pathJoin [wd, r.dest, subPath]])

/-- sync.matchSyncRules: the destinations of one relative path under the
declared rules. -/
def matchSyncRules (syncRules : List SyncRule) (relPath containerWd : String) : Except String (List String) :=
  matchSyncRulesGo relPath containerWd syncRules []

/-- Loop body of intersect: resolves each changed file relative to the
workspace, matches it against the rules, abandons the whole intersection
with .ok none when a file matches zero rules, and accumulates
file to destinations bindings otherwise. -/
def intersectGo (contextWd containerWd : String) (syncRules : List SyncRule) : List String → syncMap → Except String (Option syncMap)
  | [], ret => .ok (some ret)
  | f :: fs, ret =>
    match filepathRel contextWd f with
    | .error err =>
      .error ("changed file " ++ f ++ " can't be found relative to context " ++ contextWd ++ ": " ++ err)
    | .ok relPath =>
      match matchSyncRules syncRules relPath containerWd with
      | .error err => .error err
      | .ok dsts =>
        if dsts.length = 0 then .ok none
        else intersectGo contextWd containerWd syncRules fs (syncMapSet ret f dsts)

/-- sync.intersect: the all-or-nothing sync map of a batch of changed
files; .ok none is the distinct no-usable-plan signal. -/
def intersect (contextWd containerWd : String) (syncRules : List SyncRule) (files : List String) : Except String (Option syncMap) :=
  intersectGo contextWd containerWd syncRules files []

/-- sync.latestTag: the tag of the first build whose image name equals
the query, and the empty string when no build matches. -/
def latestTag (image : String) : List BuildArtifact → String
  | [] => ""
  | b :: bs => if b.imageName = image then b.tag else latestTag image bs

/-- Spaces between rendered list entries, as fmt does. -/
def joinSpace : List String → String
  | [] => ""
  | [s] => s
  | s :: rest => s ++ " " ++ joinSpace rest

/-- The fmt %v rendering of a build list that the missing-tag error of
NewItem embeds: entries as brace-wrapped field values. -/
def buildsFormat (builds : List BuildArtifact) : String :=
  "[" ++ joinSpace (builds.map (fun b => "\x7b" ++ b.imageName ++ " " ++ b.tag ++ "\x7d")) ++ "]"

/-- The calls NewItem makes to its collaborators: the image names given
to the tag resolver and the tags given to the working-directory
resolver. -/
structure ResolverTrace where
  tagCalls : List String
  wdCalls : List String
deriving DecidableEq, Repr

/-- sync.NewItem together with the trace of collaborator calls. The
working-directory resolver (the package variable WorkingDir, an injected
capability) is a parameter taking the tag and the insecure-registry
flags. Mirrors the Go control flow: the no-change and no-rule guard, tag
resolution with a hard error on the empty tag, working-directory
resolution with a wrapped error, the two intersections with wrapped
errors checked before the nil checks, and the final nil-signal check.
The Go code binds the resolved tag once; here the pure call
latestTag a.imageName builds stands wherever Go reads tag. -/
def NewItemT (workingDir : String → List (String × Bool) → Except String String)
    (a : Artifact) (e : Events) (builds : List BuildArtifact)
    (insecureRegistries : List (String × Bool)) : Except String (Option Item) × ResolverTrace :=
  if !e.hasChanged || (artifactSyncRules a).isEmpty then (.ok none, ⟨[], []⟩)
  else
    if latestTag a.imageName builds = "" then
      (.error ("could not find latest tag for image " ++ a.imageName ++ " in builds: " ++ buildsFormat builds),
       ⟨[a.imageName], []⟩)
    else
      match workingDir (latestTag a.imageName builds) insecureRegistries with
      | .error err =>
        (.error ("retrieving working dir for " ++ latestTag a.imageName builds ++ ": " ++ err),
         ⟨[a.imageName], [latestTag a.imageName builds]⟩)
      | .ok containerWd =>
        match intersect a.workspace containerWd (artifactSyncRules a) (e.added ++ e.modified) with
        | .error err =>
          (.error ("intersecting sync map and added, modified files: " ++ err),
           ⟨[a.imageName], [latestTag a.imageName builds]⟩)
        | .ok toCopy =>
          match intersect a.workspace containerWd (artifactSyncRules a) e.deleted with
          | .error err =>
            (.error ("intersecting sync map and deleted files: " ++ err),
             ⟨[a.imageName], [latestTag a.imageName builds]⟩)
          | .ok toDelete =>
            match toCopy, toDelete with
            | some c, some d =>
              (.ok (some ⟨latestTag a.imageName builds, c, d⟩),
               ⟨[a.imageName], [latestTag a.imageName builds]⟩)
            | _, _ => (.ok none, ⟨[a.imageName], [latestTag a.imageName builds]⟩)

/-- sync.NewItem: the plan-building result alone. -/
def NewItem (workingDir : String → List (String × Bool) → Except String String)
    (a : Artifact) (e : Events) (builds : List BuildArtifact)
    (insecureRegistries : List (String × Bool)) : Except String (Option Item) :=
  (NewItemT workingDir a e builds insecureRegistries).1

/-! ### The plan executor (sync.Perform)

The cluster client, the command generator and the command runner are
injected capabilities: the client maps a namespace to its pods (or a
discovery error), the generator maps a pod, container and sync map to an
ordered command list, and the runner (util.RunCmdOut) executes one
command. Commands are an abstract type. Besides the Go result, the
embedding returns the list of commands that were executed successfully,
which makes already-applied effects observable. -/

/-- A container of a pod, with its declared image reference. -/
structure Container where
  name : String
  image : String
deriving DecidableEq, Repr

/-- A pod: the containers of its spec. -/
structure Pod where
  containers : List Container
deriving DecidableEq, Repr

/-- The running state of one Perform call: the numSynced counter and the
commands executed successfully so far. -/
structure PerformState (Cmd : Type) where
  numSynced : Nat
  executed : List Cmd
deriving DecidableEq

/-- The innermost loop of Perform: runs the generated commands strictly
in order; the first failure stops with that error and the state reached,
each success bumps the counter and records the command. -/
def runCmds {Cmd : Type} (runCmd : Cmd → Except String String) :
    List Cmd → PerformState Cmd → PerformState Cmd × Option String
  | [], st => (st, none)
  | cmd :: rest, st =>
    match runCmd cmd with
    | .error e => (st, some e)
    | .ok _ => runCmds runCmd rest ⟨st.numSynced + 1, st.executed ++ [cmd]⟩

/-- The container loop of Perform: skips containers whose image differs
from the target and runs the generated commands of the others. -/
def syncContainers {Cmd : Type} (runCmd : Cmd → Except String String)
    (cmdFn : Pod → Container → syncMap → List Cmd) (image : String) (files : syncMap) (p : Pod) :
    List Container → PerformState Cmd → PerformState Cmd × Option String
  | [], st => (st, none)
  | c :: cs, st =>
    if c.image ≠ image then syncContainers runCmd cmdFn image files p cs st
    else
      match runCmds runCmd (cmdFn p c files) st with
      | (st', some e) => (st', some e)
      | (st', none) => syncContainers runCmd cmdFn image files p cs st'

/-- The pod loop of Perform. -/
def syncPods {Cmd : Type} (runCmd : Cmd → Except String String)
    (cmdFn : Pod → Container → syncMap → List Cmd) (image : String) (files : syncMap) :
    List Pod → PerformState Cmd → PerformState Cmd × Option String
  | [], st => (st, none)
  | p :: ps, st =>
    match syncContainers runCmd cmdFn image files p p.containers st with
    | (st', some e) => (st', some e)
    | (st', none) => syncPods runCmd cmdFn image files ps st'

/-- The namespace loop of Perform: lists the pods of each namespace,
wrapping a listing failure with the namespace name. -/
def syncNamespaces {Cmd : Type} (listPods : String → Except String (List Pod))
    (runCmd : Cmd → Except String String) (cmdFn : Pod → Container → syncMap → List Cmd)
    (image : String) (files : syncMap) :
    List String → PerformState Cmd → PerformState Cmd × Option String
  | [], st => (st, none)
  | ns :: rest, st =>
    match listPods ns with
    | .error e => (st, some ("getting pods for namespace " ++ ns ++ ": " ++ e))
    | .ok pods =>
      match syncPods runCmd cmdFn image files pods st with
      | (st', some e) => (st', some e)
      | (st', none) => syncNamespaces listPods runCmd cmdFn image files rest st'

/-- sync.Perform together with the list of commands executed
successfully: succeeds trivially on an empty sync map, wraps a client
failure, walks namespaces, pods and containers sequentially, and turns a
zero counter into the distinct no-files-synced error. -/
def PerformT {Cmd : Type} (client : Except String (String → Except String (List Pod)))
    (runCmd : Cmd → Except String String) (image : String) (files : syncMap)
    (cmdFn : Pod → Container → syncMap → List Cmd) (namespaces : List String) :
    Except String Unit × List Cmd :=
  if files.isEmpty then (.ok (), [])
  else
    match client with
    | .error e => (.error ("getting k8s client: " ++ e), [])
    | .ok listPods =>
      match syncNamespaces listPods runCmd cmdFn image files namespaces ⟨0, []⟩ with
      | (st, some e) => (.error e, st.executed)
      | (st, none) =>
        if st.numSynced = 0 then (.error "didn't sync any files", st.executed)
        else (.ok (), st.executed)

/-- sync.Perform: the execution result alone. -/
def Perform {Cmd : Type} (client : Except String (String → Except String (List Pod)))
    (runCmd : Cmd → Except String String) (image : String) (files : syncMap)
    (cmdFn : Pod → Container → syncMap → List Cmd) (namespaces : List String) :
    Except String Unit :=
  (PerformT client runCmd image files cmdFn namespaces).1

/-- The operations Perform plans when every listing succeeds: for each
namespace in order, for each pod and container in order, the generated
commands of the containers whose image equals the target. -/
def plannedOps {Cmd : Type} (cmdFn : Pod → Container → syncMap → List Cmd)
    (image : String) (files : syncMap) (podsOf : String → List Pod)
    (namespaces : List String) : List Cmd :=
  namespaces.flatMap (fun ns => (podsOf ns).flatMap (fun p =>
    p.containers.flatMap (fun c => if c.image = image then cmdFn p c files else [])))

/-! ### Spec-side definitions (for refinement statements) -/

/-- The spec's description of the tag resolver: the tag of the first
build whose image name equals the query, the empty string when none
matches. -/
def latestTagSpec (image : String) (builds : List BuildArtifact) : String :=
  ((builds.find? (fun b => b.imageName = image)).map BuildArtifact.tag).getD ""

/-- The spec's description of a matched rule's destination: the
destination is prefixed with the container working directory exactly
when it is not absolute, the literal strip prefix is removed from the
relative path with a no-strip fallback, and the remainder is joined onto
the possibly prefixed destination. -/
def ruleDestination (containerWd relPath : String) (r : SyncRule) : String :=
  pathJoin [(if pathIsAbs r.dest then "" else containerWd), r.dest, trimPre relPath r.strip]

/-- Whether a rule's source pattern matches the relative path without a
pattern error. -/
def ruleMatchesB (relPath : String) (r : SyncRule) : Bool :=
  match pathMatch r.src relPath with
  | .ok true => true
  | _ => false

/-! ### Helper lemmas -/

/-- The resolver scan agrees with the spec-side first-match description. -/
lemma latestTag_eq_spec (image : String) (builds : List BuildArtifact) :
    latestTag image builds = latestTagSpec image builds := by
  induction builds with
  | nil => rfl
  | cons b bs ih =>
    by_cases h : b.imageName = image
    · simp [latestTag, latestTagSpec, List.find?, h]
    · simp [latestTag, latestTagSpec, List.find?, h] at ih ⊢
      exact ih

/-- The no-change and no-rule guard of NewItem holds exactly when the
batch is unchanged or the artifact declares no rules. -/
lemma newItem_guard_true_iff (a : Artifact) (e : Events) :
    (!e.hasChanged || (artifactSyncRules a).isEmpty) = true ↔
      e.hasChanged = false ∨ artifactSyncRules a = [] := by
  simp [List.isEmpty_iff]

/-- The matcher loop appends, onto its accumulator, one destination per
matching rule, in declaration order, whenever no pattern error occurs. -/
lemma matchSyncRulesGo_spec (relPath containerWd : String) (rules : List SyncRule) :
    ∀ acc : List String,
      (∀ r ∈ rules, ∃ b, pathMatch r.src relPath = .ok b) →
      matchSyncRulesGo relPath containerWd rules acc =
        .ok (acc ++ (rules.filter (ruleMatchesB relPath)).map (ruleDestination containerWd relPath)) := by
  induction rules with
  | nil => intro acc _; simp [matchSyncRulesGo]
  | cons r rs ih =>
    intro acc h
    obtain ⟨b, hb⟩ := h r (by simp)
    have htail : ∀ r' ∈ rs, ∃ b, pathMatch r'.src relPath = .ok b :=
      fun r' hr' => h r' (by simp [hr'])
    cases b
    · have hm : ruleMatchesB relPath r = false := by simp [ruleMatchesB, hb]
      simp only [matchSyncRulesGo, hb]
      rw [ih acc htail]
      simp [List.filter_cons, hm]
    · have hm : ruleMatchesB relPath r = true := by simp [ruleMatchesB, hb]
      simp only [matchSyncRulesGo, hb]
      rw [ih _ htail]
      simp [List.filter_cons, hm, ruleDestination]

/-- A pattern error on any rule makes the matcher loop fail with the
wrapped pattern error, whatever the accumulator. -/
lemma matchSyncRulesGo_error (relPath containerWd : String) (rules : List SyncRule) :
    ∀ acc : List String, (∃ r ∈ rules, pathMatch r.src relPath = .error ()) →
      matchSyncRulesGo relPath containerWd rules acc =
        .error ("pattern error for " ++ relPath ++ ": syntax error in pattern") := by
  induction rules with
  | nil => intro acc h; simp at h
  | cons r rs ih =>
    intro acc h
    rcases h with ⟨r', hr', herr⟩
    rcases List.mem_cons.mp hr' with rfl | hmem
    · simp [matchSyncRulesGo, herr]
    · cases hp2 : pathMatch r.src relPath with
      | error e2 => cases e2; simp [matchSyncRulesGo, hp2]
      | ok b2 =>
        cases b2 <;> simp only [matchSyncRulesGo, hp2] <;>
          exact ih _ ⟨r', hmem, herr⟩

/-! ### Claims -/

/-- Claim C3: if the batch's hasChanged flag is false or the artifact
declares zero manual sync rules, plan building returns the (nil, nil)
signal without invoking the tag resolver or the working-directory
resolver (the collaborator-call trace is empty). -/
theorem C3_no_change_or_no_rules_is_silent_noop
    (workingDir : String → List (String × Bool) → Except String String)
    (a : Artifact) (e : Events) (builds : List BuildArtifact) (regs : List (String × Bool))
    (h : e.hasChanged = false ∨ artifactSyncRules a = []) :
    NewItemT workingDir a e builds regs = (.ok none, ⟨[], []⟩) := by
  have hg : (!e.hasChanged || (artifactSyncRules a).isEmpty) = true :=
    (newItem_guard_true_iff a e).mpr h
  unfold NewItemT
  rw [if_pos hg]

/-- Witness for C3 at a concrete unchanged batch. -/
theorem C3_no_change_or_no_rules_is_silent_noop_witness :
    ((Events.mk [] [] []).hasChanged = false ∨
      artifactSyncRules ⟨"img", "ws", some ⟨[⟨"*", "d", ""⟩]⟩⟩ = []) ∧
    NewItemT (fun _ _ => .ok "/wd") ⟨"img", "ws", some ⟨[⟨"*", "d", ""⟩]⟩⟩
      ⟨[], [], []⟩ [⟨"img", "img:tag"⟩] [] = (.ok none, ⟨[], []⟩) :=
  ⟨Or.inl rfl,
   C3_no_change_or_no_rules_is_silent_noop (fun _ _ => .ok "/wd")
     ⟨"img", "ws", some ⟨[⟨"*", "d", ""⟩]⟩⟩ ⟨[], [], []⟩ [⟨"img", "img:tag"⟩] []
     (Or.inl rfl)⟩

/-- Claim C4: latestTag returns the tag of the first build whose image
name equals the query (empty when none matches), and an empty resolved
tag makes plan building fail with the could-not-find-latest-tag error
naming the image, not return a nil plan. -/
theorem C4_first_match_tag_and_empty_tag_is_error :
    (∀ (image : String) (builds : List BuildArtifact),
      latestTag image builds = latestTagSpec image builds) ∧
    (∀ (workingDir : String → List (String × Bool) → Except String String)
      (a : Artifact) (e : Events) (builds : List BuildArtifact) (regs : List (String × Bool)),
      e.hasChanged = true → artifactSyncRules a ≠ [] →
      latestTag a.imageName builds = "" →
      NewItem workingDir a e builds regs =
        .error ("could not find latest tag for image " ++ a.imageName ++
          " in builds: " ++ buildsFormat builds)) := by
  constructor
  · exact latestTag_eq_spec
  · intro workingDir a e builds regs hch hrules htag
    have hg : (!e.hasChanged || (artifactSyncRules a).isEmpty) = false := by
      simp [hch, List.isEmpty_iff, hrules]
    unfold NewItem NewItemT
    simp [hg, htag]

/-- Witness for C4: the first of two matching builds wins, and an
artifact with no build entry fails with the missing-tag error. -/
theorem C4_first_match_tag_and_empty_tag_is_error_witness :
    latestTag "i" [⟨"x", "t1"⟩, ⟨"i", "t2"⟩, ⟨"i", "t3"⟩] =
      latestTagSpec "i" [⟨"x", "t1"⟩, ⟨"i", "t2"⟩, ⟨"i", "t3"⟩] ∧
    NewItem (fun _ _ => .ok "/wd") ⟨"img", "ws", some ⟨[⟨"*", "d", ""⟩]⟩⟩
      ⟨["ws/a"], [], []⟩ [] [] =
      .error ("could not find latest tag for image " ++ "img" ++ " in builds: " ++
        buildsFormat []) :=
  ⟨C4_first_match_tag_and_empty_tag_is_error.1 "i" [⟨"x", "t1"⟩, ⟨"i", "t2"⟩, ⟨"i", "t3"⟩],
   C4_first_match_tag_and_empty_tag_is_error.2 (fun _ _ => .ok "/wd")
     ⟨"img", "ws", some ⟨[⟨"*", "d", ""⟩]⟩⟩ ⟨["ws/a"], [], []⟩ [] []
     (by decide) (by decide) (by decide)⟩

/-- Claim C5: a matching rule's destination prefixes the rule destination
with the container working directory exactly when the destination is not
absolute, strips the rule's literal prefix from the relative path with a
no-strip fallback, and joins the remainder onto the possibly prefixed
destination; in particular the rule with source src/**/*.js, destination
/app and strip src/ sends the relative path src/a/b.js of working
directory /home/app to /app/a/b.js. -/
theorem C5_matched_rule_destination
    : (∀ (r : SyncRule) (relPath containerWd : String),
        pathMatch r.src relPath = .ok true →
        matchSyncRules [r] relPath containerWd = .ok [ruleDestination containerWd relPath r]) ∧
      matchSyncRules [⟨"src/**/*.js", "/app", "src/"⟩] "src/a/b.js" "/home/app" =
        .ok ["/app/a/b.js"] := by
  constructor
  · intro r relPath containerWd h
    have hm : ruleMatchesB relPath r = true := by simp [ruleMatchesB, h]
    have := matchSyncRulesGo_spec relPath containerWd [r] []
      (by intro r' hr'; simp at hr'; subst hr'; exact ⟨true, h⟩)
    simpa [matchSyncRules, List.filter_cons, hm] using this
  · decide

/-- Witness for C5 at the spec's relative-destination example: the rule
with destination dist and empty strip sends x/y.txt of working directory
/home/app to /home/app/dist/x/y.txt. -/
theorem C5_matched_rule_destination_witness :
    pathMatch "**" "x/y.txt" = .ok true ∧
    matchSyncRules [⟨"**", "dist", ""⟩] "x/y.txt" "/home/app" =
      .ok [ruleDestination "/home/app" "x/y.txt" ⟨"**", "dist", ""⟩] ∧
    ruleDestination "/home/app" "x/y.txt" ⟨"**", "dist", ""⟩ = "/home/app/dist/x/y.txt" :=
  ⟨by decide,
   C5_matched_rule_destination.1 ⟨"**", "dist", ""⟩ "x/y.txt" "/home/app" (by decide),
   by decide⟩

/-- Claim C6: without pattern errors, the matcher returns one destination
per matching rule, in rule declaration order, with no deduplication or
merging: the result is exactly the image of the matched-rule sublist. -/
theorem C6_order_preserved_one_entry_per_match
    (rules : List SyncRule) (relPath containerWd : String)
    (h : ∀ r ∈ rules, ∃ b, pathMatch r.src relPath = .ok b) :
    matchSyncRules rules relPath containerWd =
      .ok ((rules.filter (ruleMatchesB relPath)).map (ruleDestination containerWd relPath)) := by
  unfold matchSyncRules
  simpa using matchSyncRulesGo_spec relPath containerWd rules [] h

/-- Witness for C6: a path matching two declared rules yields exactly the
two destinations in declaration order. -/
theorem C6_order_preserved_one_entry_per_match_witness :
    matchSyncRules [⟨"*.js", "/a", ""⟩, ⟨"b.js", "/b", ""⟩] "b.js" "/w" =
      .ok ((([⟨"*.js", "/a", ""⟩, ⟨"b.js", "/b", ""⟩] : List SyncRule).filter
        (ruleMatchesB "b.js")).map (ruleDestination "/w" "b.js")) ∧
    (([⟨"*.js", "/a", ""⟩, ⟨"b.js", "/b", ""⟩] : List SyncRule).filter
        (ruleMatchesB "b.js")).map (ruleDestination "/w" "b.js") = ["/a/b.js", "/b/b.js"] :=
  ⟨C6_order_preserved_one_entry_per_match [⟨"*.js", "/a", ""⟩, ⟨"b.js", "/b", ""⟩]
     "b.js" "/w" (by decide),
   by decide⟩

/-- Claim C7: a malformed source pattern reached during matching is a
hard error wrapped with the path being matched; the intersection
propagates it instead of returning the no-plan signal, and plan building
returns the wrapped error to the caller. -/
theorem C7_pattern_error_propagates
    : (∀ (rules : List SyncRule) (relPath containerWd : String),
        (∃ r ∈ rules, pathMatch r.src relPath = .error ()) →
        matchSyncRules rules relPath containerWd =
          .error ("pattern error for " ++ relPath ++ ": syntax error in pattern")) ∧
      (∀ (ws containerWd : String) (rules : List SyncRule) (f : String) (fs : List String)
        (rel m : String), filepathRel ws f = .ok rel →
        matchSyncRules rules rel containerWd = .error m →
        intersect ws containerWd rules (f :: fs) = .error m) ∧
      (∀ (workingDir : String → List (String × Bool) → Except String String)
        (a : Artifact) (e : Events) (builds : List BuildArtifact) (regs : List (String × Bool))
        (containerWd f rel m : String) (rest : List String),
        e.hasChanged = true → artifactSyncRules a ≠ [] →
        latestTag a.imageName builds ≠ "" →
        workingDir (latestTag a.imageName builds) regs = .ok containerWd →
        e.added = f :: rest →
        filepathRel a.workspace f = .ok rel →
        matchSyncRules (artifactSyncRules a) rel containerWd = .error m →
        NewItem workingDir a e builds regs =
          .error ("intersecting sync map and added, modified files: " ++ m)) := by
  refine ⟨?_, ?_, ?_⟩
  · intro rules relPath containerWd h
    exact matchSyncRulesGo_error relPath containerWd rules [] h
  · intro ws containerWd rules f fs rel m hrel herr
    simp [intersect, intersectGo, hrel, herr]
  · intro workingDir a e builds regs containerWd f rel m rest hch hrules htag hwd hadd hrel herr
    have hg : (!e.hasChanged || (artifactSyncRules a).isEmpty) = false := by
      simp [hch, List.isEmpty_iff, hrules]
    have hcopy : intersect a.workspace containerWd (artifactSyncRules a)
        (e.added ++ e.modified) = .error m := by
      rw [hadd, List.cons_append]
      simp [intersect, intersectGo, hrel, herr]
    unfold NewItem NewItemT
    simp [hg, htag, hwd, hcopy]

/-- Witness for C7 with the malformed pattern consisting of a bare
escape character. -/
theorem C7_pattern_error_propagates_witness :
    matchSyncRules [⟨"\\", "/d", ""⟩] "a" "/wd" =
      .error ("pattern error for " ++ "a" ++ ": syntax error in pattern") ∧
    intersect "ws" "/wd" [⟨"\\", "/d", ""⟩] ["ws/a"] =
      .error ("pattern error for " ++ "a" ++ ": syntax error in pattern") ∧
    NewItem (fun _ _ => .ok "/wd") ⟨"img", "ws", some ⟨[⟨"\\", "/d", ""⟩]⟩⟩
      ⟨["ws/a"], [], []⟩ [⟨"img", "img:tag"⟩] [] =
      .error ("intersecting sync map and added, modified files: " ++
        ("pattern error for " ++ "a" ++ ": syntax error in pattern")) :=
  ⟨C7_pattern_error_propagates.1 [⟨"\\", "/d", ""⟩] "a" "/wd" (by decide),
   C7_pattern_error_propagates.2.1 "ws" "/wd" [⟨"\\", "/d", ""⟩] "ws/a" [] "a" _
     (by decide) (C7_pattern_error_propagates.1 [⟨"\\", "/d", ""⟩] "a" "/wd" (by decide)),
   C7_pattern_error_propagates.2.2 (fun _ _ => .ok "/wd")
     ⟨"img", "ws", some ⟨[⟨"\\", "/d", ""⟩]⟩⟩ ⟨["ws/a"], [], []⟩ [⟨"img", "img:tag"⟩] []
     "/wd" "ws/a" "a" _ [] (by decide) (by decide) (by decide) (by decide) (by decide)
     (by decide) (C7_pattern_error_propagates.1 [⟨"\\", "/d", ""⟩] "a" "/wd" (by decide))⟩

/-- Every binding of an updated sync map is an old binding or the new
one. -/
lemma syncMapSet_mem (m : syncMap) (k : String) (v : List String) :
    ∀ kv ∈ syncMapSet m k v, kv ∈ m ∨ kv = (k, v) := by
  induction m with
  | nil => intro kv h; simp [syncMapSet] at h; simp [h]
  | cons p m ih =>
    obtain ⟨k', v'⟩ := p
    intro kv h
    by_cases hk : k' = k
    · simp [syncMapSet, hk] at h
      rcases h with h | h
      · right; simp [h]
      · left; simp [h]
    · simp [syncMapSet, hk] at h
      rcases h with h | h
      · left; simp [h]
      · rcases ih kv h with h1 | h1
        · left; simp [h1]
        · right; exact h1

/-- When every file of the batch resolves to a relative path and matches
without a pattern error, the intersector loop does not fail. -/
lemma intersectGo_clean (ws cwd : String) (rules : List SyncRule) :
    ∀ (files : List String) (acc : syncMap),
      (∀ f ∈ files, ∃ rel ds, filepathRel ws f = .ok rel ∧
        matchSyncRules rules rel cwd = .ok ds) →
      ∃ o, intersectGo ws cwd rules files acc = .ok o := by
  intro files
  induction files with
  | nil => intro acc _; exact ⟨some acc, rfl⟩
  | cons f fs ih =>
    intro acc h
    obtain ⟨rel, ds, hrel, hds⟩ := h f (by simp)
    have htail : ∀ f' ∈ fs, ∃ rel ds, filepathRel ws f' = .ok rel ∧
        matchSyncRules rules rel cwd = .ok ds := fun f' hf' => h f' (by simp [hf'])
    by_cases hlen : ds.length = 0
    · exact ⟨none, by simp [intersectGo, hrel, hds, hlen]⟩
    · obtain ⟨o, ho⟩ := ih (syncMapSet acc f ds) htail
      exact ⟨o, by simp [intersectGo, hrel, hds, hlen, ho]⟩

/-- When additionally some file of the batch matches zero rules, the
intersector loop abandons the batch with the no-plan signal. -/
lemma intersectGo_miss (ws cwd : String) (rules : List SyncRule) :
    ∀ (files : List String) (acc : syncMap),
      (∀ f ∈ files, ∃ rel ds, filepathRel ws f = .ok rel ∧
        matchSyncRules rules rel cwd = .ok ds) →
      (∃ f ∈ files, ∃ rel, filepathRel ws f = .ok rel ∧
        matchSyncRules rules rel cwd = .ok []) →
      intersectGo ws cwd rules files acc = .ok none := by
  intro files
  induction files with
  | nil => intro acc _ hmiss; simp at hmiss
  | cons f fs ih =>
    intro acc hclean hmiss
    obtain ⟨rel, ds, hrel, hds⟩ := hclean f (by simp)
    have htail : ∀ f' ∈ fs, ∃ rel ds, filepathRel ws f' = .ok rel ∧
        matchSyncRules rules rel cwd = .ok ds := fun f' hf' => hclean f' (by simp [hf'])
    by_cases hlen : ds.length = 0
    · simp [intersectGo, hrel, hds, hlen]
    · rcases hmiss with ⟨f0, hf0, rel0, hrel0, hmat0⟩
      rcases List.mem_cons.mp hf0 with rfl | hmem
      · exfalso
        have h1 : rel0 = rel := by
          have := hrel0.symm.trans hrel
          exact (Except.ok.injEq _ _).mp this
        subst h1
        have h2 : ds = [] := by
          have := hds.symm.trans hmat0
          exact (Except.ok.injEq _ _).mp this
        subst h2
        exact hlen rfl
      · simp only [intersectGo, hrel, hds, hlen, if_false]
        exact ih (syncMapSet acc f ds) htail ⟨f0, hmem, rel0, hrel0, hmat0⟩

/-- A successfully built sync map only ever binds a file to the non-empty
destination list the matcher produced for it. -/
lemma intersectGo_values (ws cwd : String) (rules : List SyncRule) :
    ∀ (files : List String) (acc : syncMap) (m : syncMap),
      (∀ kv ∈ acc, kv.2 ≠ []) →
      intersectGo ws cwd rules files acc = .ok (some m) →
      ∀ kv ∈ m, kv.2 ≠ [] := by
  intro files
  induction files with
  | nil =>
    intro acc m hacc h kv hkv
    simp [intersectGo] at h
    subst h
    exact hacc kv hkv
  | cons f fs ih =>
    intro acc m hacc h kv hkv
    cases hrel : filepathRel ws f with
    | error err => simp [intersectGo, hrel] at h
    | ok rel =>
      cases hds : matchSyncRules rules rel cwd with
      | error err => simp [intersectGo, hrel, hds] at h
      | ok ds =>
        by_cases hlen : ds.length = 0
        · simp [intersectGo, hrel, hds, hlen] at h
        · have h' : intersectGo ws cwd rules fs (syncMapSet acc f ds) = .ok (some m) := by
            simpa [intersectGo, hrel, hds, hlen] using h
          have hacc' : ∀ kv ∈ syncMapSet acc f ds, kv.2 ≠ [] := by
            intro kv hkv'
            rcases syncMapSet_mem acc f ds kv hkv' with h1 | h1
            · exact hacc kv h1
            · subst h1
              simpa [List.length_eq_zero] using hlen
          exact ih (syncMapSet acc f ds) m hacc' h' kv hkv

/-- A clean batch does not fail the intersector. -/
lemma intersect_clean (ws cwd : String) (rules : List SyncRule) (files : List String)
    (h : ∀ f ∈ files, ∃ rel ds, filepathRel ws f = .ok rel ∧
      matchSyncRules rules rel cwd = .ok ds) :
    ∃ o, intersect ws cwd rules files = .ok o :=
  intersectGo_clean ws cwd rules files [] h

/-- A clean batch with an unmatched file makes the intersector return
the no-plan signal. -/
lemma intersect_miss (ws cwd : String) (rules : List SyncRule) (files : List String)
    (hclean : ∀ f ∈ files, ∃ rel ds, filepathRel ws f = .ok rel ∧
      matchSyncRules rules rel cwd = .ok ds)
    (hmiss : ∃ f ∈ files, ∃ rel, filepathRel ws f = .ok rel ∧
      matchSyncRules rules rel cwd = .ok []) :
    intersect ws cwd rules files = .ok none :=
  intersectGo_miss ws cwd rules files [] hclean hmiss

/-- Inversion of a successful plan build: the working directory was
resolved and both intersections produced the plan's maps. -/
lemma newItem_ok_some_inv (workingDir : String → List (String × Bool) → Except String String)
    (a : Artifact) (e : Events) (builds : List BuildArtifact) (regs : List (String × Bool))
    (item : Item) (h : NewItem workingDir a e builds regs = .ok (some item)) :
    ∃ cwd, workingDir (latestTag a.imageName builds) regs = .ok cwd ∧
      intersect a.workspace cwd (artifactSyncRules a) (e.added ++ e.modified) =
        .ok (some item.copy) ∧
      intersect a.workspace cwd (artifactSyncRules a) e.deleted = .ok (some item.delete) := by
  unfold NewItem NewItemT at h
  cases hg : (!e.hasChanged || (artifactSyncRules a).isEmpty) with
  | true => simp [hg] at h
  | false =>
    simp only [hg, Bool.false_eq_true, if_false] at h
    by_cases htag : latestTag a.imageName builds = ""
    · simp [htag] at h
    · simp only [htag, if_false] at h
      cases hwd : workingDir (latestTag a.imageName builds) regs with
      | error err => simp [hwd] at h
      | ok cwd =>
        simp only [hwd] at h
        cases hcopy : intersect a.workspace cwd (artifactSyncRules a)
            (e.added ++ e.modified) with
        | error err => simp [hcopy] at h
        | ok oc =>
          simp only [hcopy] at h
          cases hdel : intersect a.workspace cwd (artifactSyncRules a) e.deleted with
          | error err => simp [hdel] at h
          | ok od =>
            simp only [hdel] at h
            cases oc with
            | none => cases od <;> simp at h
            | some c =>
              cases od with
              | none => simp at h
              | some d =>
                simp only [Except.ok.injEq, Option.some.injEq] at h
                subst h
                exact ⟨cwd, rfl, hcopy, hdel⟩

/-- Claim C1: a changed path that matches zero rules makes the
intersection return the no-plan signal rather than an error, and makes
plan building return the no-plan signal for the whole batch, regardless
of the other paths matching. -/
theorem C1_zero_match_aborts_whole_batch
    (workingDir : String → List (String × Bool) → Except String String)
    (a : Artifact) (e : Events) (builds : List BuildArtifact) (regs : List (String × Bool))
    (cwd : String)
    (htag : latestTag a.imageName builds ≠ "")
    (hwd : workingDir (latestTag a.imageName builds) regs = .ok cwd)
    (hclean : ∀ f ∈ (e.added ++ e.modified) ++ e.deleted, ∃ rel ds,
      filepathRel a.workspace f = .ok rel ∧
      matchSyncRules (artifactSyncRules a) rel cwd = .ok ds)
    (hmiss : ∃ f ∈ (e.added ++ e.modified) ++ e.deleted, ∃ rel,
      filepathRel a.workspace f = .ok rel ∧
      matchSyncRules (artifactSyncRules a) rel cwd = .ok []) :
    (∀ (ws cwd' : String) (rules : List SyncRule) (files : List String),
      (∀ f ∈ files, ∃ rel ds, filepathRel ws f = .ok rel ∧
        matchSyncRules rules rel cwd' = .ok ds) →
      (∃ f ∈ files, ∃ rel, filepathRel ws f = .ok rel ∧
        matchSyncRules rules rel cwd' = .ok []) →
      intersect ws cwd' rules files = .ok none) ∧
    NewItem workingDir a e builds regs = .ok none := by
  refine ⟨fun ws cwd' rules files hc hm => intersect_miss ws cwd' rules files hc hm, ?_⟩
  cases hg : (!e.hasChanged || (artifactSyncRules a).isEmpty) with
  | true => unfold NewItem NewItemT; simp [hg]
  | false =>
    have hcleanC : ∀ f ∈ e.added ++ e.modified, ∃ rel ds,
        filepathRel a.workspace f = .ok rel ∧
        matchSyncRules (artifactSyncRules a) rel cwd = .ok ds :=
      fun f hf => hclean f (List.mem_append_left _ hf)
    have hcleanD : ∀ f ∈ e.deleted, ∃ rel ds,
        filepathRel a.workspace f = .ok rel ∧
        matchSyncRules (artifactSyncRules a) rel cwd = .ok ds :=
      fun f hf => hclean f (List.mem_append_right _ hf)
    unfold NewItem NewItemT
    rcases hmiss with ⟨f0, hf0, hm0⟩
    rcases List.mem_append.mp hf0 with hcm | hdm
    · have hcopy := intersect_miss a.workspace cwd (artifactSyncRules a)
        (e.added ++ e.modified) hcleanC ⟨f0, hcm, hm0⟩
      obtain ⟨o, hdelo⟩ := intersect_clean a.workspace cwd (artifactSyncRules a)
        e.deleted hcleanD
      cases o <;> simp [hg, htag, hwd, hcopy, hdelo]
    · have hdelm := intersect_miss a.workspace cwd (artifactSyncRules a)
        e.deleted hcleanD ⟨f0, hdm, hm0⟩
      obtain ⟨o, hcopyo⟩ := intersect_clean a.workspace cwd (artifactSyncRules a)
        (e.added ++ e.modified) hcleanC
      cases o <;> simp [hg, htag, hwd, hcopyo, hdelm]

/-- Witness for C1: of two changed files, the second matches a rule but
the first matches none, and the whole plan build yields the no-plan
signal. -/
theorem C1_zero_match_aborts_whole_batch_witness :
    NewItem (fun _ _ => .ok "/wd") ⟨"img", "ws", some ⟨[⟨"*.txt", "d", ""⟩]⟩⟩
      ⟨["ws/a.go", "ws/b.txt"], [], []⟩ [⟨"img", "img:tag"⟩] [] = .ok none :=
  (C1_zero_match_aborts_whole_batch (fun _ _ => .ok "/wd")
    ⟨"img", "ws", some ⟨[⟨"*.txt", "d", ""⟩]⟩⟩ ⟨["ws/a.go", "ws/b.txt"], [], []⟩
    [⟨"img", "img:tag"⟩] [] "/wd" (by decide) (by decide)
    (by
      intro f hf
      simp only [List.append_nil, List.mem_append, List.mem_cons,
        List.not_mem_nil, or_false] at hf
      rcases hf with rfl | rfl
      · exact ⟨"a.go", [], by decide, by decide⟩
      · exact ⟨"b.txt", ["/wd/d/b.txt"], by decide, by decide⟩)
    ⟨"ws/a.go", by simp, "a.go", by decide, by decide⟩).2

/-- Claim C2: every plan returned by plan building is fully populated:
each file bound in its copy map or its delete map has at least one
destination. -/
theorem C2_returned_plans_fully_populated
    (workingDir : String → List (String × Bool) → Except String String)
    (a : Artifact) (e : Events) (builds : List BuildArtifact) (regs : List (String × Bool))
    (item : Item) (h : NewItem workingDir a e builds regs = .ok (some item)) :
    (∀ kv ∈ item.copy, 1 ≤ kv.2.length) ∧ (∀ kv ∈ item.delete, 1 ≤ kv.2.length) := by
  obtain ⟨cwd, _, hcopy, hdel⟩ := newItem_ok_some_inv workingDir a e builds regs item h
  constructor
  · intro kv hkv
    have hne := intersectGo_values a.workspace cwd (artifactSyncRules a)
      (e.added ++ e.modified) [] item.copy (by simp) hcopy kv hkv
    exact Nat.one_le_iff_ne_zero.mpr (fun hlen => hne (List.length_eq_zero.mp hlen))
  · intro kv hkv
    have hne := intersectGo_values a.workspace cwd (artifactSyncRules a)
      e.deleted [] item.delete (by simp) hdel kv hkv
    exact Nat.one_le_iff_ne_zero.mpr (fun hlen => hne (List.length_eq_zero.mp hlen))

/-- Witness for C2 on a concretely built plan. -/
theorem C2_returned_plans_fully_populated_witness :
    NewItem (fun _ _ => .ok "/wd") ⟨"img", "ws", some ⟨[⟨"*.txt", "dest", ""⟩]⟩⟩
      ⟨["ws/a.txt"], [], []⟩ [⟨"img", "img:tag"⟩] [] =
      .ok (some ⟨"img:tag", [("ws/a.txt", ["/wd/dest/a.txt"])], []⟩) ∧
    ((∀ kv ∈ (Item.mk "img:tag" [("ws/a.txt", ["/wd/dest/a.txt"])] []).copy,
        1 ≤ kv.2.length) ∧
      (∀ kv ∈ (Item.mk "img:tag" [("ws/a.txt", ["/wd/dest/a.txt"])] []).delete,
        1 ≤ kv.2.length)) :=
  ⟨by decide,
   C2_returned_plans_fully_populated (fun _ _ => .ok "/wd")
     ⟨"img", "ws", some ⟨[⟨"*.txt", "dest", ""⟩]⟩⟩ ⟨["ws/a.txt"], [], []⟩
     [⟨"img", "img:tag"⟩] [] ⟨"img:tag", [("ws/a.txt", ["/wd/dest/a.txt"])], []⟩ (by decide)⟩

/-- Claim C10: plan building runs the deleted-set intersection even when
the copy-side intersection already returned the no-plan signal, and it
checks errors before checking the signal: a delete-side error is
returned, and the no-plan signal comes back only when neither
intersection errored. -/
theorem C10_delete_error_beats_no_plan_signal
    (workingDir : String → List (String × Bool) → Except String String)
    (a : Artifact) (e : Events) (builds : List BuildArtifact) (regs : List (String × Bool))
    (cwd : String)
    (hch : e.hasChanged = true) (hrules : artifactSyncRules a ≠ [])
    (htag : latestTag a.imageName builds ≠ "")
    (hwd : workingDir (latestTag a.imageName builds) regs = .ok cwd) :
    (∀ err : String,
      intersect a.workspace cwd (artifactSyncRules a) (e.added ++ e.modified) = .ok none →
      intersect a.workspace cwd (artifactSyncRules a) e.deleted = .error err →
      NewItem workingDir a e builds regs =
        .error ("intersecting sync map and deleted files: " ++ err)) ∧
    (NewItem workingDir a e builds regs = .ok none →
      (∃ o, intersect a.workspace cwd (artifactSyncRules a)
        (e.added ++ e.modified) = .ok o) ∧
      (∃ o, intersect a.workspace cwd (artifactSyncRules a) e.deleted = .ok o)) := by
  have hg : (!e.hasChanged || (artifactSyncRules a).isEmpty) = false := by
    simp [hch, List.isEmpty_iff, hrules]
  constructor
  · intro err hcopy hdel
    unfold NewItem NewItemT
    simp [hg, htag, hwd, hcopy, hdel]
  · intro h
    unfold NewItem NewItemT at h
    simp only [hg, Bool.false_eq_true, if_false, htag, hwd] at h
    cases hcopy : intersect a.workspace cwd (artifactSyncRules a)
        (e.added ++ e.modified) with
    | error err => simp [hcopy] at h
    | ok oc =>
      simp only [hcopy] at h
      cases hdel : intersect a.workspace cwd (artifactSyncRules a) e.deleted with
      | error err => simp [hdel] at h
      | ok od => exact ⟨⟨oc, rfl⟩, ⟨od, rfl⟩⟩

/-- Witness for C10: the copy-side file misses the rule without reaching
the malformed tail of its pattern, while the deleted file reaches it, so
the delete-side intersection errors and plan building reports that
error. -/
theorem C10_delete_error_beats_no_plan_signal_witness :
    NewItem (fun _ _ => .ok "/wd") ⟨"img", "ws", some ⟨[⟨"a\\", "/d", ""⟩]⟩⟩
      ⟨["ws/b"], [], ["ws/ab"]⟩ [⟨"img", "img:tag"⟩] [] =
      .error ("intersecting sync map and deleted files: " ++
        ("pattern error for " ++ "ab" ++ ": syntax error in pattern")) :=
  (C10_delete_error_beats_no_plan_signal (fun _ _ => .ok "/wd")
    ⟨"img", "ws", some ⟨[⟨"a\\", "/d", ""⟩]⟩⟩ ⟨["ws/b"], [], ["ws/ab"]⟩
    [⟨"img", "img:tag"⟩] [] "/wd" (by decide) (by decide) (by decide) (by decide)).1
    ("pattern error for " ++ "ab" ++ ": syntax error in pattern") (by decide) (by decide)

/-- Sequential command execution splits over concatenation: the first
failure short-circuits the rest. -/
lemma runCmds_append {Cmd : Type} (runCmd : Cmd → Except String String)
    (xs ys : List Cmd) :
    ∀ st : PerformState Cmd,
      runCmds runCmd (xs ++ ys) st =
        match runCmds runCmd xs st with
        | (st', none) => runCmds runCmd ys st'
        | (st', some e) => (st', some e) := by
  induction xs with
  | nil => intro st; simp [runCmds]
  | cons c cs ih =>
    intro st
    cases hc : runCmd c with
    | error e => simp [runCmds, hc]
    | ok out => simp [runCmds, hc, ih]

/-- The container loop executes exactly the commands generated for the
containers whose image equals the target, in order. -/
lemma syncContainers_eq_runCmds {Cmd : Type} (runCmd : Cmd → Except String String)
    (cmdFn : Pod → Container → syncMap → List Cmd) (image : String) (files : syncMap)
    (p : Pod) :
    ∀ (cs : List Container) (st : PerformState Cmd),
      syncContainers runCmd cmdFn image files p cs st =
        runCmds runCmd
          (cs.flatMap (fun c => if c.image = image then cmdFn p c files else [])) st := by
  intro cs
  induction cs with
  | nil => intro st; simp [syncContainers, runCmds]
  | cons c cs ih =>
    intro st
    by_cases hc : c.image = image
    · simp only [syncContainers, hc, ne_eq, not_true_eq_false, if_false,
        List.flatMap_cons, if_pos hc]
      rw [runCmds_append]
      rcases hr : runCmds runCmd (cmdFn p c files) st with ⟨st', e?⟩
      cases e? with
      | none => simp [hr, ih]
      | some e => simp [hr]
    · simp [syncContainers, hc, List.flatMap_cons, ih]

/-- The pod loop executes exactly the commands of all matching containers
of all pods, in order. -/
lemma syncPods_eq_runCmds {Cmd : Type} (runCmd : Cmd → Except String String)
    (cmdFn : Pod → Container → syncMap → List Cmd) (image : String) (files : syncMap) :
    ∀ (ps : List Pod) (st : PerformState Cmd),
      syncPods runCmd cmdFn image files ps st =
        runCmds runCmd
          (ps.flatMap (fun p => p.containers.flatMap
            (fun c => if c.image = image then cmdFn p c files else []))) st := by
  intro ps
  induction ps with
  | nil => intro st; simp [syncPods, runCmds]
  | cons p ps ih =>
    intro st
    simp only [syncPods, List.flatMap_cons]
    rw [syncContainers_eq_runCmds, runCmds_append]
    rcases hr : runCmds runCmd
      (p.containers.flatMap (fun c => if c.image = image then cmdFn p c files else [])) st
      with ⟨st', e?⟩
    cases e? with
    | none => simp [hr, ih]
    | some e => simp [hr]

/-- When every listing succeeds, the namespace loop executes exactly the
planned operation sequence, in order. -/
lemma syncNamespaces_eq_runCmds {Cmd : Type} (podsOf : String → List Pod)
    (runCmd : Cmd → Except String String) (cmdFn : Pod → Container → syncMap → List Cmd)
    (image : String) (files : syncMap) :
    ∀ (nss : List String) (st : PerformState Cmd),
      syncNamespaces (fun ns => .ok (podsOf ns)) runCmd cmdFn image files nss st =
        runCmds runCmd (plannedOps cmdFn image files podsOf nss) st := by
  intro nss
  induction nss with
  | nil => intro st; simp [syncNamespaces, plannedOps, runCmds]
  | cons ns rest ih =>
    intro st
    simp only [syncNamespaces, plannedOps, List.flatMap_cons]
    rw [syncPods_eq_runCmds, runCmds_append]
    rcases hr : runCmds runCmd
      ((podsOf ns).flatMap (fun p => p.containers.flatMap
        (fun c => if c.image = image then cmdFn p c files else []))) st
      with ⟨st', e?⟩
    cases e? with
    | none => simpa [hr, plannedOps] using ih st'
    | some e => simp [hr]

/-- Commands that all succeed advance the counter by their number and
append themselves to the executed trace. -/
lemma runCmds_all_ok {Cmd : Type} (runCmd : Cmd → Except String String) :
    ∀ (cmds : List Cmd) (st : PerformState Cmd),
      (∀ c ∈ cmds, ∃ out, runCmd c = .ok out) →
      runCmds runCmd cmds st =
        (⟨st.numSynced + cmds.length, st.executed ++ cmds⟩, none) := by
  intro cmds
  induction cmds with
  | nil => intro st _; simp [runCmds]
  | cons c cs ih =>
    intro st h
    obtain ⟨out, hout⟩ := h c (by simp)
    have := ih ⟨st.numSynced + 1, st.executed ++ [c]⟩ (fun c' hc' => h c' (by simp [hc']))
    simp only [runCmds, hout, this, Prod.mk.injEq, PerformState.mk.injEq,
      List.length_cons, List.append_assoc, List.singleton_append, and_true]
    omega

/-- A sequence whose prefix succeeds and whose next command fails stops
at that command with its error, leaving exactly the prefix executed. -/
lemma runCmds_fails_after_pre {Cmd : Type} (runCmd : Cmd → Except String String)
    (pre : List Cmd) (bad : Cmd) (post : List Cmd) (err : String)
    (hpre : ∀ c ∈ pre, ∃ out, runCmd c = .ok out)
    (hbad : runCmd bad = .error err) (st : PerformState Cmd) :
    runCmds runCmd (pre ++ bad :: post) st =
      (⟨st.numSynced + pre.length, st.executed ++ pre⟩, some err) := by
  rw [runCmds_append, runCmds_all_ok runCmd pre st hpre]
  simp [runCmds, hbad]

/-- Claim C8: with a non-empty sync map, when every visited container
either does not run the target image or generates zero operations, the
executed-operation counter stays zero and Perform fails with the
distinct no-files-synced error, with nothing executed. -/
theorem C8_zero_effect_is_failure {Cmd : Type}
    (podsOf : String → List Pod) (runCmd : Cmd → Except String String)
    (image : String) (files : syncMap) (cmdFn : Pod → Container → syncMap → List Cmd)
    (namespaces : List String)
    (hne : files ≠ [])
    (hzero : ∀ ns ∈ namespaces, ∀ p ∈ podsOf ns, ∀ c ∈ p.containers,
      c.image = image → cmdFn p c files = []) :
    PerformT (.ok (fun ns => .ok (podsOf ns))) runCmd image files cmdFn namespaces =
      (.error "didn't sync any files", []) := by
  have hfe : files.isEmpty = false := by
    simpa [List.isEmpty_iff] using hne
  have hplan : plannedOps cmdFn image files podsOf namespaces = [] := by
    unfold plannedOps
    apply List.flatMap_eq_nil_iff.mpr
    intro ns hns
    apply List.flatMap_eq_nil_iff.mpr
    intro p hp
    apply List.flatMap_eq_nil_iff.mpr
    intro c hc
    by_cases hci : c.image = image
    · simp [hci, hzero ns hns p hp c hc hci]
    · simp [hci]
  unfold PerformT
  rw [hfe]
  simp only [Bool.false_eq_true, if_false]
  rw [syncNamespaces_eq_runCmds, hplan]
  simp [runCmds]

/-- Witness for C8: one namespace, one pod whose only container runs a
different image. -/
theorem C8_zero_effect_is_failure_witness :
    PerformT (.ok (fun _ => .ok [⟨[⟨"c", "other"⟩]⟩]))
      (fun _ => .ok "") "img" [("f", ["/d"])] (fun _ _ _ => ([1] : List Nat)) ["ns"] =
      (.error "didn't sync any files", []) :=
  C8_zero_effect_is_failure (fun _ => [⟨[⟨"c", "other"⟩]⟩]) (fun _ => .ok "")
    "img" [("f", ["/d"])] (fun _ _ _ => ([1] : List Nat)) ["ns"] (by decide) (by decide)

/-- Claim C9: Perform executes the planned operations strictly in order;
the first failing operation aborts the whole call with that operation's
error returned verbatim, and the operations already executed, on this or
on prior containers, pods and namespaces, stay executed: exactly the
successful prefix remains applied. -/
theorem C9_first_failure_aborts_no_rollback {Cmd : Type}
    (podsOf : String → List Pod) (runCmd : Cmd → Except String String)
    (image : String) (files : syncMap) (cmdFn : Pod → Container → syncMap → List Cmd)
    (namespaces : List String) (pre post : List Cmd) (bad : Cmd) (err : String)
    (hne : files ≠ [])
    (hsplit : plannedOps cmdFn image files podsOf namespaces = pre ++ bad :: post)
    (hpre : ∀ c ∈ pre, ∃ out, runCmd c = .ok out)
    (hbad : runCmd bad = .error err) :
    PerformT (.ok (fun ns => .ok (podsOf ns))) runCmd image files cmdFn namespaces =
      (.error err, pre) := by
  have hfe : files.isEmpty = false := by
    simpa [List.isEmpty_iff] using hne
  unfold PerformT
  rw [hfe]
  simp only [Bool.false_eq_true, if_false]
  rw [syncNamespaces_eq_runCmds, hsplit,
    runCmds_fails_after_pre runCmd pre bad post err hpre hbad]
  simp

/-- Witness for C9: of three generated operations the second fails; its
error is returned and exactly the first operation remains executed. -/
theorem C9_first_failure_aborts_no_rollback_witness :
    PerformT (.ok (fun _ => .ok [⟨[⟨"c", "img"⟩]⟩]))
      (fun n => if n = 2 then .error "boom" else .ok "") "img" [("f", ["/d"])]
      (fun _ _ _ => ([1, 2, 3] : List Nat)) ["ns"] = (.error "boom", [1]) :=
  C9_first_failure_aborts_no_rollback (fun _ => [⟨[⟨"c", "img"⟩]⟩])
    (fun n => if n = 2 then .error "boom" else .ok "") "img" [("f", ["/d"])]
    (fun _ _ _ => ([1, 2, 3] : List Nat)) ["ns"] [1] [3] 2 "boom" (by decide) (by decide)
    (by
      intro c hc
      simp only [List.mem_singleton] at hc
      subst hc
      exact ⟨"", rfl⟩)
    (by decide)

end Skaffold

